import Mathlib

/-!
# Verification of the iterm-mcp process-tracking core

Shallow embedding of `src/ProcessTracker.ts` (process snapshot records,
interest scoring, environment classification, descendant collection and
metrics aggregation) and of the idle-wait loop `isWaitingForUserInput` in
`src/CommandExecutor.ts`.

Conventions of the embedding:
* JavaScript numbers are modelled as `ℚ` (the constants appearing in the
  code — 0.1, 1, 5, 10, 350, 1000, 1024 — and all claim inputs are exact
  in ℚ, so the comparisons performed by the code are faithfully mirrored).
* Strings are Lean `String`s; `toLowerCase` is modelled on the ASCII range
  (all command lines involved are ASCII).
* The recursive descendant walk of `getAllDescendants` has no structural
  termination measure in the source (it re-scans the flat list), so it is
  embedded with an explicit fuel parameter: `none` means the recursion was
  still running after `fuel` nested steps.  A run that diverges in the
  source is `none` for every fuel.
* `parseInt`/`parseFloat` failures (NaN) are modelled as `Option.none`.
-/

/-- One row of the `ps` snapshot, as parsed by `getProcessesForTTY`
(`src/ProcessTracker.ts`, interface `ProcessInfo`).  `memory` keeps the raw
RSS-in-KB column as the string the code stores (`parts[6]`); `cpuPercent`
is the already-parsed `%cpu` column.  The mutable `children` array built by
`getProcessesForTTY` is omitted: none of the operations verified here read
it (`getAllDescendants` re-filters the flat list instead). -/

structure ProcessInfo where
  pid : String
  ppid : String
  pgid : String
  sess : String
  state : String
  cpuPercent : ℚ
  memory : String
  time : String
  command : String
deriving Repr, DecidableEq

/-- One entry of `ProcessMetrics.processBreakdown`: note `memory` is the raw
KB string copied from the record (`memory: proc.memory` in the source). -/

structure BreakdownEntry where
  name : String
  pid : String
  cpuPercent : ℚ
  memory : String
deriving Repr, DecidableEq

/-- Resource rollup returned by `calculateProcessMetrics`. -/

structure ProcessMetrics where
  totalCPUPercent : ℚ
  totalMemoryMB : ℚ
  processBreakdown : List BreakdownEntry
deriving Repr, DecidableEq

/-- The resolved answer returned by `getActiveProcess`. -/

structure ActiveProcess where
  pid : String
  ppid : String
  pgid : String
  name : String
  command : String
  state : String
  commandChain : String
  environment : Option String
  applicationContext : Option String
  metrics : ProcessMetrics
deriving Repr, DecidableEq

/-- ASCII model of JavaScript `String.prototype.toLowerCase`. -/

def jsToLower (s : String) : String :=
  String.mk (s.data.map Char.toLower)

/-- ASCII model of JavaScript `String.prototype.toUpperCase`. -/

def jsToUpper (s : String) : String :=
  String.mk (s.data.map Char.toUpper)

/-- Model of JavaScript `String.prototype.trim` (ASCII whitespace). -/

def jsTrim (s : String) : String :=
  String.mk (((s.data.dropWhile Char.isWhitespace).reverse.dropWhile Char.isWhitespace).reverse)

/-- `pat.isSubListOf s`-style substring test: model of JavaScript
`String.prototype.includes` (does `pat` occur contiguously in `s`?). -/

def includesSub (s pat : String) : Bool :=
  go s.data pat.data
where
  go : List Char → List Char → Bool
    | s, pat =>
      match s with
      | [] => pat.isEmpty
      | _ :: t => pat.isPrefixOf s || go t pat

/-- First whitespace-delimited token of a command line: model of
`command.split(/\s+/)[0]` for the commands at hand (a command that does not
begin with whitespace). -/

def firstToken (s : String) : String :=
  String.mk (s.data.takeWhile (fun c => ¬ c.isWhitespace))

/-- Model of Node's `path.basename` on the inputs at hand: strip trailing
slashes, then keep the part after the last `/`. -/

def jsBasename (s : String) : String :=
  let noTrail := ((s.data.reverse.dropWhile (fun c => c = '/')).reverse)
  String.mk ((noTrail.reverse.takeWhile (fun c => c ≠ '/')).reverse)

/-- `getProcessName` (`src/ProcessTracker.ts`): basename of the command's
first whitespace-delimited token. -/

def getProcessName (command : String) : String :=
  jsBasename (firstToken command)

/-- The `shellNames` set of `ProcessTracker`. -/

def shellNames : List String :=
  ["bash", "zsh", "sh", "fish", "csh", "tcsh"]

/-- The `replNames` set of `ProcessTracker`. -/

def replNames : List String :=
  ["irb", "pry", "rails", "node", "python", "ipython",
   "scala", "ghci", "iex", "lein", "clj", "julia", "R", "php", "lua"]

/-- `calculateProcessScore` (`src/ProcessTracker.ts`): additive interest
heuristic over a process record. -/

def calculateProcessScore (process : ProcessInfo) : ℚ :=
  let cmdName := getProcessName process.command
  let score0 : ℚ := if process.state = "R" then 2 else if process.state = "S" then 1 else 0
  let score1 := score0 + min (process.cpuPercent / 10) 5
  let score2 := if shellNames.contains cmdName then score1 - 1 else score1
  let score3 := if replNames.contains cmdName then score2 + 3 else score2
  if (cmdName = "brew" ∨ cmdName = "npm" ∨ cmdName = "yarn") ∧ process.cpuPercent > 0 then
    score3 + 2
  else
    score3

/-- `findMostInterestingProcess` (`src/ProcessTracker.ts`):
`processes.reduce((best, current) => currentScore > bestScore ? current : best,
processes[0])`.  The JS `reduce` with an explicit initial value folds over the
whole array, so the head is compared against itself once (harmless). -/

def findMostInterestingProcess (processes : List ProcessInfo) : Option ProcessInfo :=
  match processes with
  | [] => none
  | h :: _ =>
      some (processes.foldl
        (fun best current =>
          if calculateProcessScore current > calculateProcessScore best then current else best)
        h)

/-- Spec-side selector, written from the spec's words: the first-encountered
candidate achieving the maximal score ("ties broken by first-encountered
order").  Compared against `findMostInterestingProcess` in claim C7. -/

def specFirstMaxSelect (processes : List ProcessInfo) : Option ProcessInfo :=
  processes.find?
    (fun p => processes.all
      (fun q => decide (calculateProcessScore q ≤ calculateProcessScore p)))

/-- The children scan inside `getAllDescendants`'s `collect`:
`allProcesses.filter(p => p.ppid === proc.pid)`. -/

def childrenOf (allProcesses : List ProcessInfo) (proc : ProcessInfo) : List ProcessInfo :=
  allProcesses.filter (fun p => p.ppid == proc.pid)

/-- The worklist recursion of `getAllDescendants`'s inner `collect`
(`src/ProcessTracker.ts`): for each `child` of the head, push `child`, then
recurse into `child`'s own children, then continue with the remaining
siblings.  The source recursion has no termination guard (no visited set),
so it is embedded with fuel; `none` means the recursion was still running
when the fuel ran out.  A source run that never terminates is `none` for
every fuel. -/

def collectFrom (allProcesses : List ProcessInfo) : Nat → List ProcessInfo → Option (List ProcessInfo)
  | _, [] => some []
  | 0, _ :: _ => none
  | fuel + 1, child :: rest => do
    let sub ← collectFrom allProcesses fuel (childrenOf allProcesses child)
    let siblings ← collectFrom allProcesses fuel rest
    pure (child :: (sub ++ siblings))

/-- `getAllDescendants` (`src/ProcessTracker.ts`): `collect(process)` starts
from the children of the root.  (The `processByPid` table the source builds
here is never read by `collect`, which re-filters the flat list.) -/

def getAllDescendants (process : ProcessInfo) (allProcesses : List ProcessInfo) (fuel : Nat) :
    Option (List ProcessInfo) :=
  collectFrom allProcesses fuel (childrenOf allProcesses process)

/-- Word character of the JS regex class `\w`, i.e. `[A-Za-z0-9_]`. -/

def isWordChar (c : Char) : Bool :=
  c.isAlpha || c.isDigit || c = '_'

/-- Model of `cmd.match(/RAILS_ENV=(\w+)/)?.[1]`: scan for the leftmost
occurrence of the literal `RAILS_ENV=` followed by at least one word
character, returning the maximal `\w+` capture. -/

def railsEnvScan : List Char → Option String
  | [] => none
  | c :: rest =>
    if "RAILS_ENV=".data.isPrefixOf (c :: rest) then
      let w := ((c :: rest).drop 10).takeWhile isWordChar
      if w.isEmpty then railsEnvScan rest else some (String.mk w)
    else railsEnvScan rest

/-- Model of `command.match(/\/([^/]+)\/config\/environment/)?.[1]`: the
leftmost position holding `/`, a nonempty slash-free segment, then the
literal `/config/environment`; the capture is the segment.  (The greedy
`[^/]+` cannot cross a slash, so the segment necessarily runs exactly to the
next `/`.) -/

def appNameScan : List Char → Option String
  | [] => none
  | c :: rest =>
    if c = '/' then
      let seg := rest.takeWhile (fun ch => ch ≠ '/')
      if !seg.isEmpty && "/config/environment".data.isPrefixOf (rest.drop seg.length) then
        some (String.mk seg)
      else appNameScan rest
    else appNameScan rest

/-- The `replMap` lookup with its `|| name.toUpperCase() + ' REPL'`
fallback in `detectEnvironment`. -/

def replDisplayName (name : String) : String :=
  if name = "irb" then "Ruby IRB"
  else if name = "pry" then "Pry Console"
  else if name = "node" then "Node.js REPL"
  else if name = "python" then "Python REPL"
  else if name = "ipython" then "IPython Console"
  else jsToUpper name ++ " REPL"

/-- `name.charAt(0).toUpperCase() + name.slice(1)`. -/

def jsCapitalize (name : String) : String :=
  match name.data with
  | [] => ""
  | c :: rest => String.mk (Char.toUpper c :: rest)

/-- The optional environment label / application context pair returned by
`detectEnvironment`. -/

structure EnvInfo where
  environment : Option String
  applicationContext : Option String
deriving Repr, DecidableEq

/-- `detectEnvironment` (`src/ProcessTracker.ts`).  Note two facts of the
source mirrored here: the command is lowercased into `cmd` before the
case-sensitive `/RAILS_ENV=(\w+)/` match runs on it, while the
`/config/environment` match runs on the original-case command; and the
`allProcesses` parameter of the source is never read (as the unused
`cmdParts` local also is not), so it is omitted. -/

def detectEnvironment (process : ProcessInfo) : EnvInfo :=
  let cmd := jsToLower process.command
  let name := jsToLower (getProcessName process.command)
  if includesSub cmd "rails console" || (name == "ruby" && includesSub cmd "rails server") then
    let envMatch := railsEnvScan cmd.data
    let appNameMatch := appNameScan process.command.data
    let railsEnv := envMatch.getD "development"
    let appName := appNameMatch.getD "Rails App"
    { environment := some "Rails Console",
      applicationContext := some (appName ++ " (" ++ railsEnv ++ ")") }
  else if replNames.contains name then
    { environment := some (replDisplayName name), applicationContext := none }
  else if name == "brew" || name == "npm" || name == "yarn" || name == "pip" then
    { environment := some (jsCapitalize name ++ " Package Manager"), applicationContext := none }
  else
    { environment := none, applicationContext := none }

/-- Model of `parseInt(s, 10)`: skip leading whitespace, optional sign, then
decimal digits; `none` models the `NaN` produced when no digit is found. -/

def parseIntJs (s : String) : Option ℤ :=
  let t0 := s.data.dropWhile Char.isWhitespace
  let sign : ℤ := match t0 with | '-' :: _ => -1 | _ => 1
  let t1 := match t0 with | '-' :: u => u | '+' :: u => u | _ => t0
  let digits := t1.takeWhile Char.isDigit
  if digits.isEmpty then none
  else some (sign * ((digits.foldl (fun n c => 10 * n + (c.toNat - 48)) 0 : ℕ) : ℤ))

/-- `parseMemoryString` (`src/ProcessTracker.ts`): `parseInt(memory, 10) / 1024`,
KB to MB. -/

def parseMemoryString (memory : String) : Option ℚ :=
  (parseIntJs memory).map (fun kb => (kb : ℚ) / 1024)

/-- The breakdown entry pushed by `calculateProcessMetrics`: note the
`memory` field copies the raw KB string `proc.memory`, unconverted. -/

def mkBreakdownEntry (proc : ProcessInfo) : BreakdownEntry :=
  { name := getProcessName proc.command
    pid := proc.pid
    cpuPercent := proc.cpuPercent
    memory := proc.memory }

/-- The accumulation loop of `calculateProcessMetrics` over
`[process, ...descendants]`: sum CPU, sum memory-in-MB, and push a breakdown
entry for each contributor with `cpuPercent > 0.1 || memoryMB > 5`.
`none` models a `NaN`-poisoned run (a memory column that does not parse). -/

def metricsFold : List ProcessInfo → Option (ℚ × ℚ × List BreakdownEntry)
  | [] => some (0, 0, [])
  | proc :: rest => do
    let memoryMB ← parseMemoryString proc.memory
    let acc ← metricsFold rest
    pure (proc.cpuPercent + acc.1, memoryMB + acc.2.1,
      (if proc.cpuPercent > 0.1 ∨ memoryMB > 5 then [mkBreakdownEntry proc] else []) ++ acc.2.2)

/-- `processBreakdown.sort((a, b) => b.cpuPercent - a.cpuPercent)`:
descending by CPU percentage (stable merge sort models Node's stable sort). -/

def sortBreakdown (entries : List BreakdownEntry) : List BreakdownEntry :=
  entries.mergeSort (fun a b => decide (b.cpuPercent ≤ a.cpuPercent))

/-- `calculateProcessMetrics` (`src/ProcessTracker.ts`): collect descendants,
fold totals and breakdown over `[process, ...descendants]`, sort breakdown. -/

def calculateProcessMetrics (process : ProcessInfo) (allProcesses : List ProcessInfo)
    (fuel : Nat) : Option ProcessMetrics := do
  let descendants ← getAllDescendants process allProcesses fuel
  let acc ← metricsFold (process :: descendants)
  pure { totalCPUPercent := acc.1
         totalMemoryMB := acc.2.1
         processBreakdown := sortBreakdown acc.2.2 }

/-- Lookup in the `processByPid` object: JS object assignment means a later
record with the same pid overwrites an earlier one, so the fold keeps the
last match. -/

def lookupByPid (allProcesses : List ProcessInfo) (key : String) : Option ProcessInfo :=
  allProcesses.foldl (fun acc p => if p.pid == key then some p else acc) none

/-- The piece after the first occurrence of `pat`, i.e. everything following
that occurrence (used with `takeUntilSub` to model `s.split(pat)[1]`). -/

def dropThroughSub (pat : List Char) : List Char → Option (List Char)
  | [] => if pat.isEmpty then some [] else none
  | c :: t =>
    if pat.isPrefixOf (c :: t) then some ((c :: t).drop pat.length)
    else dropThroughSub pat t

/-- Truncate at the next occurrence of `pat` (the second split piece ends at
the following occurrence of the separator). -/

def takeUntilSub (pat : List Char) : List Char → List Char
  | [] => []
  | c :: t => if pat.isPrefixOf (c :: t) then [] else c :: takeUntilSub pat t

/-- Model of `s.split(pat)[1]` for a literal separator: the text strictly
between the first and second occurrences of `pat` (to the end if `pat`
occurs once); `none` when `pat` does not occur. -/

def splitSecondPiece (s pat : String) : Option String :=
  (dropThroughSub pat.data s.data).map (fun t => String.mk (takeUntilSub pat.data t))

/-- The per-node label pushed by `buildCommandChain`'s loop body. -/

def commandChainStep (current : ProcessInfo) : String :=
  let name := getProcessName current.command
  if name == "ruby" && includesSub current.command "rails console" then
    "rails console"
  else if name == "brew" && includesSub current.command "install" then
    "brew install " ++ jsTrim ((splitSecondPiece current.command "install").getD "")
  else
    name

/-- The `while (current && chain.length < maxChainLength)` loop of
`buildCommandChain`, with the remaining capacity (10 minus the chain length)
as the counter. -/

def buildCommandChainGo (allProcesses : List ProcessInfo) :
    Nat → Option ProcessInfo → List String → List String
  | _, none, chain => chain
  | 0, some _, chain => chain
  | remaining + 1, some current, chain =>
      buildCommandChainGo allProcesses remaining
        (lookupByPid allProcesses current.ppid)
        (chain ++ [commandChainStep current])

/-- `buildCommandChain` (`src/ProcessTracker.ts`): walk up the parent links
for at most 10 hops, then reverse and join with " -> ". -/

def buildCommandChain (process : ProcessInfo) (allProcesses : List ProcessInfo) : String :=
  String.intercalate " -> " ((buildCommandChainGo allProcesses 10 (some process) []).reverse)

/-- One observation consumed by an iteration of the idle-wait loop in
`isWaitingForUserInput` (`src/CommandExecutor.ts`): `Except.error` models the
inner `catch` being reached (an exception thrown during the iteration),
`Except.ok none` models `getActiveProcess` resolving to `null`, and
`Except.ok (some cpu)` an active process whose `metrics.totalCPUPercent` is
`cpu`.  Indexed by the iteration number (one observation per 350 ms tick). -/

def PollObs : Type :=
  Nat → Except Unit (Option ℚ)

/-- The `while (true)` polling loop of `isWaitingForUserInput`
(`src/CommandExecutor.ts`): per iteration, an error observation returns
`true`; no active process returns `true`; CPU below 1% adds the 350 ms
cadence to `belowThresholdTime` and returns `true` once it reaches 1000 ms;
CPU at or above 1% resets the accumulator.  Fueled: `none` means the loop
was still polling after `fuel` iterations. -/

def isWaitingLoop (obs : PollObs) : Nat → Nat → Nat → Option Bool
  | 0, _, _ => none
  | fuel + 1, tick, belowThresholdTime =>
    match obs tick with
    | Except.error _ => some true
    | Except.ok none => some true
    | Except.ok (some cpu) =>
        if cpu < 1 then
          if belowThresholdTime + 350 ≥ 1000 then some true
          else isWaitingLoop obs fuel (tick + 1) (belowThresholdTime + 350)
        else isWaitingLoop obs fuel (tick + 1) 0

/-- `isWaitingForUserInput` (`src/CommandExecutor.ts`).  `openOk = false`
models `openSync` throwing (outer catch returns `true`); the `finally` block
ends in `return true`, which in JavaScript overrides whatever the `try`
returned, so any produced result is forced to `true`. -/

def isWaitingForUserInput (openOk : Bool) (obs : PollObs) (fuel : Nat) : Option Bool :=
  match (if openOk then isWaitingLoop obs fuel 0 0 else some true) with
  | none => none
  | some _ => some true

/-- The environment a single `getActiveProcess` call runs against: whether
`existsSync(ttyPath)` holds, the outcome of the `ps` snapshot query (already
parsed into rows; `Except.error` models the `execAsync` call throwing), and
the raw trimmed-stdout outcome of the foreground-process-group query. -/

structure TTYWorld where
  ttyExists : Bool
  psResult : Except Unit (List ProcessInfo)
  fgResult : Except Unit String

/-- `getProcessesForTTY` (`src/ProcessTracker.ts`): a failed query degrades
to an empty list (its own try/catch). -/

def getProcessesForTTY (w : TTYWorld) : List ProcessInfo :=
  match w.psResult with
  | Except.error _ => []
  | Except.ok rows => rows

/-- `getForegroundProcessGroup` (`src/ProcessTracker.ts`): a failed query
degrades to `none`; otherwise the trimmed stdout. -/

def getForegroundProcessGroup (w : TTYWorld) : Option String :=
  match w.fgResult with
  | Except.error _ => none
  | Except.ok stdout => some (jsTrim stdout)

/-- The body of `getActiveProcess`'s `try` block.  The outer `Option` is the
fuel/divergence layer (`none` = the descendant walk inside
`calculateProcessMetrics` had not finished, or a memory column failed to
parse); `Except.error` is a thrown exception (the explicit
`TTY path does not exist` throw); `Except.ok` the value returned. -/

def getActiveProcessTry (w : TTYWorld) (fuel : Nat) :
    Option (Except Unit (Option ActiveProcess)) :=
  if w.ttyExists then
    let processes := getProcessesForTTY w
    if processes.isEmpty then some (Except.ok none)
    else
      match getForegroundProcessGroup w with
      | none => some (Except.ok none)
      | some fgPgid =>
        if fgPgid = "" then some (Except.ok none)
        else
          match processes.filter (fun p => p.pgid == fgPgid) with
          | [] => some (Except.ok none)
          | a :: rest =>
            let activeProcess := (findMostInterestingProcess (a :: rest)).getD a
            let commandChain := buildCommandChain activeProcess processes
            let envInfo := detectEnvironment activeProcess
            match calculateProcessMetrics activeProcess processes fuel with
            | none => none
            | some metrics =>
              some (Except.ok (some
                { pid := activeProcess.pid
                  ppid := activeProcess.ppid
                  pgid := activeProcess.pgid
                  name := getProcessName activeProcess.command
                  command := activeProcess.command
                  state := activeProcess.state
                  commandChain := commandChain
                  environment := envInfo.environment
                  applicationContext := envInfo.applicationContext
                  metrics := metrics }))
  else
    some (Except.error ())

/-- `getActiveProcess` (`src/ProcessTracker.ts`): the surrounding
`try`/`catch` converts every thrown error into `null`.  `none` is the
divergence layer as in `getActiveProcessTry`; `some v` means the call
returned `v`. -/

def getActiveProcess (w : TTYWorld) (fuel : Nat) : Option (Option ActiveProcess) :=
  (getActiveProcessTry w fuel).map
    (fun r =>
      match r with
      | Except.error _ => none
      | Except.ok v => v)

/-- Concrete snapshot row: an idle `bash` shell, state `S`, 0% CPU (the
scorer example's first candidate). -/

def bashRec : ProcessInfo :=
  { pid := "100", ppid := "1", pgid := "100", sess := "100", state := "S",
    cpuPercent := 0, memory := "2000", time := "0:00.01", command := "bash" }

/-- Concrete snapshot row: a `python` REPL, state `R`, 12% CPU (the scorer
example's second candidate). -/

def pythonRec : ProcessInfo :=
  { pid := "101", ppid := "100", pgid := "100", sess := "100", state := "R",
    cpuPercent := 12, memory := "30000", time := "0:05.00", command := "python" }

/-- Concrete snapshot row for the Rails-console classification example: the
command line carries both the `RAILS_ENV=staging` token and the
`/apps/myapp/config/environment` path. -/

def railsRec : ProcessInfo :=
  { pid := "200", ppid := "1", pgid := "200", sess := "200", state := "S",
    cpuPercent := 2, memory := "50000", time := "0:10.00",
    command := "ruby /apps/myapp/config/environment bin/rails console RAILS_ENV=staging" }

/-- Concrete malformed snapshot row: a record listing itself as its own
parent (`ppid = pid`), the cycle case of the descendant walk. -/

def selfProc : ProcessInfo :=
  { pid := "1", ppid := "1", pgid := "1", sess := "1", state := "S",
    cpuPercent := 0, memory := "100", time := "0:00.00", command := "init" }

/-- Stub resolver stream: an active process at a constant 0.5% CPU on every
tick. -/

def halfObs : PollObs :=
  fun _ => Except.ok (some (1 / 2))

/-- Stub resolver stream: an active process at a constant 5% CPU on every
tick. -/

def fiveObs : PollObs :=
  fun _ => Except.ok (some 5)

/-- Stub resolver stream: no active process on any tick. -/

def noneObs : PollObs :=
  fun _ => Except.ok none

/-- Stub resolver stream: every poll iteration throws. -/

def errObs : PollObs :=
  fun _ => Except.error ()

/-- World whose TTY device path does not exist. -/

def ttyMissingWorld : TTYWorld :=
  { ttyExists := false, psResult := Except.ok [], fgResult := Except.error () }

/-- World with an existing device but an empty process snapshot. -/

def emptySnapshotWorld : TTYWorld :=
  { ttyExists := true, psResult := Except.ok [], fgResult := Except.ok "100" }

/-- World whose foreground-group query fails. -/

def noFgWorld : TTYWorld :=
  { ttyExists := true, psResult := Except.ok [bashRec], fgResult := Except.error () }

/-- World whose foreground group matches no snapshot process. -/

def fgMismatchWorld : TTYWorld :=
  { ttyExists := true, psResult := Except.ok [bashRec], fgResult := Except.ok "999" }

/-- World whose foreground-group query returns whitespace only (trims to the
empty string, which is falsy in the source's `if (!fgPgid)`). -/

def emptyFgWorld : TTYWorld :=
  { ttyExists := true, psResult := Except.ok [bashRec], fgResult := Except.ok "  " }

/-- Parsed memory column of a record, in MB (0 as the junk value of an
unparsable column, used only under an all-columns-parse hypothesis). -/

def memMB (q : ProcessInfo) : ℚ :=
  (parseMemoryString q.memory).getD 0

/-- The breakdown filter of `calculateProcessMetrics`:
`cpuPercent > 0.1 || memoryMB > 5`. -/

def breakdownPred (q : ProcessInfo) : Bool :=
  decide (q.cpuPercent > 0.1) || decide (memMB q > 5)

/-- Breakdown entry produced for `pythonRec` in the concrete metrics
example. -/

def exampleEntry : BreakdownEntry :=
  { name := "python", pid := "101", cpuPercent := 12, memory := "30000" }

/-- The metrics the source computes for `bashRec` over the snapshot
`[bashRec, pythonRec]` (python is bash's only descendant; bash's 0% CPU and
1.95 MB fall below both breakdown thresholds). -/

def exampleMetrics : ProcessMetrics :=
  { totalCPUPercent := 12
    totalMemoryMB := 125 / 4
    processBreakdown := [exampleEntry] }

/-- The reducer of `findMostInterestingProcess`: keep `best` unless
`current` scores strictly higher. -/

def scoreStep (best current : ProcessInfo) : ProcessInfo :=
  if calculateProcessScore current > calculateProcessScore best then current else best

lemma collectFrom_selfProc (fuel : ℕ) :
    collectFrom [selfProc] fuel [selfProc] = none := by
  induction fuel with
  | zero => rfl
  | succ n ih =>
      have hc : childrenOf [selfProc] selfProc = [selfProc] := by decide
      simp only [collectFrom, hc, ih, Option.bind_eq_bind, Option.none_bind]

/-- C1: the claim states the descendant collection never includes the root,
never duplicates a pid, and terminates even on a record listing itself as
its own parent, the walk being guarded by already-visited tracking.  The
source `collect` carries no visited set: on a snapshot whose only record is
its own parent, that record is among its own children, so the walk recurses
on it forever.  For every fuel bound the embedded walk is still running
(`none`): the source diverges on this input instead of returning a
root-free, duplicate-free list. -/
theorem C1_descendant_walk_unguarded :
    ∀ fuel : ℕ, getAllDescendants selfProc [selfProc] fuel = none := by
  intro fuel
  show collectFrom [selfProc] fuel (childrenOf [selfProc] selfProc) = none
  rw [show childrenOf [selfProc] selfProc = [selfProc] from by decide]
  exact collectFrom_selfProc fuel

/-- C2: on an observation with CPU below 1% the accumulator grows by the
350 ms cadence and the loop reports idle exactly when the accumulated time
reaches 1000 ms; an observation at or above 1% resets the accumulator to
zero; and with a constant 0.5% CPU stub the loop reports idle on the 3rd
tick (1050 ms) and not on the 2nd (700 ms). -/
theorem C2_below_threshold_accumulator :
    (∀ (obs : PollObs) (fuel tick b : ℕ) (cpu : ℚ),
        obs tick = Except.ok (some cpu) → cpu < 1 →
        isWaitingLoop obs (fuel + 1) tick b =
          if b + 350 ≥ 1000 then some true
          else isWaitingLoop obs fuel (tick + 1) (b + 350)) ∧
    (∀ (obs : PollObs) (fuel tick b : ℕ) (cpu : ℚ),
        obs tick = Except.ok (some cpu) → 1 ≤ cpu →
        isWaitingLoop obs (fuel + 1) tick b = isWaitingLoop obs fuel (tick + 1) 0) ∧
    isWaitingLoop halfObs 3 0 0 = some true ∧
    isWaitingLoop halfObs 2 0 0 = none := by
  refine ⟨?_, ?_, by norm_num [isWaitingLoop, halfObs], by norm_num [isWaitingLoop, halfObs]⟩
  · intro obs fuel tick b cpu hobs hcpu
    simp only [isWaitingLoop, hobs]
    rw [if_pos hcpu]
  · intro obs fuel tick b cpu hobs hcpu
    simp only [isWaitingLoop, hobs]
    rw [if_neg (not_lt.mpr hcpu)]

/-- Witness for C2: the accumulator step applied at concrete stubs — a 0.5%
observation on the first tick advances the accumulator to 350 ms without
reporting idle, and a 5% observation resets it. -/
theorem C2_below_threshold_accumulator_witness :
    (isWaitingLoop halfObs 1 0 0 =
      if 0 + 350 ≥ 1000 then some true else isWaitingLoop halfObs 0 (0 + 1) (0 + 350)) ∧
    isWaitingLoop fiveObs 1 0 700 = isWaitingLoop fiveObs 0 (0 + 1) 0 :=
  ⟨C2_below_threshold_accumulator.1 halfObs 0 0 0 (1 / 2) rfl (by norm_num),
   C2_below_threshold_accumulator.2.1 fiveObs 0 0 700 5 rfl (by norm_num)⟩

/-- C8: whenever the resolver reports no active process, the loop returns
idle on that very iteration, whatever the accumulated below-threshold
time. -/
theorem C8_no_active_process_immediate_idle :
    ∀ (obs : PollObs) (fuel tick b : ℕ),
      obs tick = Except.ok none →
      isWaitingLoop obs (fuel + 1) tick b = some true := by
  intro obs fuel tick b hobs
  simp only [isWaitingLoop, hobs]

/-- Witness for C8: a stub resolver reporting no active process yields idle
after a single poll with zero accumulated time. -/
theorem C8_no_active_process_immediate_idle_witness :
    isWaitingLoop noneObs 1 0 0 = some true :=
  C8_no_active_process_immediate_idle noneObs 0 0 0 rfl

/-- C9: every return path of `isWaitingForUserInput` passes through the
`finally` block's `return true`, so whenever the call returns at all its
value is `true`; `false` is unreachable at the public interface. -/
theorem C9_result_only_true :
    ∀ (openOk : Bool) (obs : PollObs) (fuel : ℕ),
      isWaitingForUserInput openOk obs fuel = none ∨
      isWaitingForUserInput openOk obs fuel = some true := by
  intro openOk obs fuel
  unfold isWaitingForUserInput
  cases (if openOk then isWaitingLoop obs fuel 0 0 else some true) with
  | none => exact Or.inl rfl
  | some b => exact Or.inr rfl

lemma score_bashRec : calculateProcessScore bashRec = 0 := by
  have h1 : getProcessName "bash" = "bash" := by decide
  have h2 : "bash" ∈ shellNames := by decide
  have h3 : "bash" ∉ replNames := by decide
  have h4 : ("bash" : String) ≠ "brew" := by decide
  have h5 : ("bash" : String) ≠ "npm" := by decide
  have h6 : ("bash" : String) ≠ "yarn" := by decide
  have h7 : ("S" : String) ≠ "R" := by decide
  norm_num [calculateProcessScore, bashRec, h1, h2, h3, h4, h5, h6, h7]

lemma score_pythonRec : calculateProcessScore pythonRec = 31 / 5 := by
  have h1 : getProcessName "python" = "python" := by decide
  have h2 : "python" ∈ replNames := by decide
  have h3 : "python" ∉ shellNames := by decide
  have h4 : ("python" : String) ≠ "brew" := by decide
  have h5 : ("python" : String) ≠ "npm" := by decide
  have h6 : ("python" : String) ≠ "yarn" := by decide
  norm_num [calculateProcessScore, pythonRec, h1, h2, h3, h4, h5, h6]

/-- C3: the Active-Process Resolver never raises past its boundary — it
returns `null` (not an error) when the device path does not exist, when the
snapshot is empty, when the foreground group cannot be resolved or trims to
the empty string, and when no snapshot process shares the foreground group;
every exception inside its `try` block is caught and converted to `null`;
and an error during a poll iteration of the idle-wait loop makes the loop
report idle (fail open) rather than propagate. -/
theorem C3_fail_closed_resolver_fail_open_loop :
    (∀ (w : TTYWorld) (fuel : ℕ), w.ttyExists = false →
        getActiveProcess w fuel = some none) ∧
    (∀ (w : TTYWorld) (fuel : ℕ), getProcessesForTTY w = [] →
        getActiveProcess w fuel = some none) ∧
    (∀ (w : TTYWorld) (fuel : ℕ), getForegroundProcessGroup w = none →
        getActiveProcess w fuel = some none) ∧
    (∀ (w : TTYWorld) (fuel : ℕ), getForegroundProcessGroup w = some "" →
        getActiveProcess w fuel = some none) ∧
    (∀ (w : TTYWorld) (fuel : ℕ) (fg : String),
        getForegroundProcessGroup w = some fg →
        (getProcessesForTTY w).filter (fun p => p.pgid == fg) = [] →
        getActiveProcess w fuel = some none) ∧
    (∀ (w : TTYWorld) (fuel : ℕ) (e : Unit),
        getActiveProcessTry w fuel = some (Except.error e) →
        getActiveProcess w fuel = some none) ∧
    (∀ (obs : PollObs) (fuel tick b : ℕ) (e : Unit), obs tick = Except.error e →
        isWaitingLoop obs (fuel + 1) tick b = some true) := by
  have h1 : ∀ (w : TTYWorld) (fuel : ℕ), w.ttyExists = false →
      getActiveProcess w fuel = some none := by
    intro w fuel h
    simp [getActiveProcess, getActiveProcessTry, h]
  have h2 : ∀ (w : TTYWorld) (fuel : ℕ), getProcessesForTTY w = [] →
      getActiveProcess w fuel = some none := by
    intro w fuel h
    cases hw : w.ttyExists with
    | false => exact h1 w fuel hw
    | true => simp [getActiveProcess, getActiveProcessTry, hw, h]
  have h3 : ∀ (w : TTYWorld) (fuel : ℕ), getForegroundProcessGroup w = none →
      getActiveProcess w fuel = some none := by
    intro w fuel h
    cases hw : w.ttyExists with
    | false => exact h1 w fuel hw
    | true =>
        cases hps : getProcessesForTTY w with
        | nil => exact h2 w fuel hps
        | cons a l => simp [getActiveProcess, getActiveProcessTry, hw, hps, h]
  have h4 : ∀ (w : TTYWorld) (fuel : ℕ), getForegroundProcessGroup w = some "" →
      getActiveProcess w fuel = some none := by
    intro w fuel h
    cases hw : w.ttyExists with
    | false => exact h1 w fuel hw
    | true =>
        cases hps : getProcessesForTTY w with
        | nil => exact h2 w fuel hps
        | cons a l => simp [getActiveProcess, getActiveProcessTry, hw, hps, h]
  have h5 : ∀ (w : TTYWorld) (fuel : ℕ) (fg : String),
      getForegroundProcessGroup w = some fg →
      (getProcessesForTTY w).filter (fun p => p.pgid == fg) = [] →
      getActiveProcess w fuel = some none := by
    intro w fuel fg hfg hfilter
    cases hw : w.ttyExists with
    | false => exact h1 w fuel hw
    | true =>
        cases hps : getProcessesForTTY w with
        | nil => exact h2 w fuel hps
        | cons a l =>
            rw [hps] at hfilter
            by_cases hfg0 : fg = ""
            · exact h4 w fuel (hfg0 ▸ hfg)
            · simp [getActiveProcess, getActiveProcessTry, hw, hps, hfg, hfg0, hfilter]
  have h6 : ∀ (w : TTYWorld) (fuel : ℕ) (e : Unit),
      getActiveProcessTry w fuel = some (Except.error e) →
      getActiveProcess w fuel = some none := by
    intro w fuel e h
    simp [getActiveProcess, h]
  have h7 : ∀ (obs : PollObs) (fuel tick b : ℕ) (e : Unit), obs tick = Except.error e →
      isWaitingLoop obs (fuel + 1) tick b = some true := by
    intro obs fuel tick b e h
    simp only [isWaitingLoop, h]
  exact ⟨h1, h2, h3, h4, h5, h6, h7⟩

/-- Witness for C3: each fail-closed case evaluated at a concrete world (a
missing device, an empty snapshot, a failed foreground query, a
whitespace-only foreground group, a foreground group matching no process, an
exception caught by the `try` block), and the fail-open loop case at a
throwing stub. -/
theorem C3_fail_closed_resolver_fail_open_loop_witness :
    getActiveProcess ttyMissingWorld 0 = some none ∧
    getActiveProcess emptySnapshotWorld 0 = some none ∧
    getActiveProcess noFgWorld 0 = some none ∧
    getActiveProcess emptyFgWorld 0 = some none ∧
    getActiveProcess fgMismatchWorld 0 = some none ∧
    isWaitingLoop errObs 1 0 0 = some true :=
  ⟨C3_fail_closed_resolver_fail_open_loop.1 ttyMissingWorld 0 rfl,
   C3_fail_closed_resolver_fail_open_loop.2.1 emptySnapshotWorld 0 rfl,
   C3_fail_closed_resolver_fail_open_loop.2.2.1 noFgWorld 0 rfl,
   C3_fail_closed_resolver_fail_open_loop.2.2.2.1 emptyFgWorld 0 (by decide),
   C3_fail_closed_resolver_fail_open_loop.2.2.2.2.1 fgMismatchWorld 0 "999"
     (by decide) (by decide),
   C3_fail_closed_resolver_fail_open_loop.2.2.2.2.2.2 errObs 0 0 0 () rfl⟩

/-- C4 counterexample: the claim's concrete example says the `python`
record (state `R`, 12% CPU) scores 5.2; the source assigns
2 (running) + min(12/10, 5) + 3 (REPL) = 6.2. -/
theorem C4_counterexample_python_not_5_2 :
    calculateProcessScore pythonRec ≠ 26 / 5 := by
  rw [score_pythonRec]
  norm_num

/-- C4 (amended): the interest score is the sum of 2 for state `R` / 1 for
state `S` / 0 otherwise, plus `min(cpuPercent/10, 5)`, minus 1 for a shell
name, plus 3 for a REPL name, plus 2 for `brew`/`npm`/`yarn` with CPU
strictly positive; the bash example (state `S`, 0% CPU) scores 0 and the
python example (state `R`, 12% CPU) scores 6.2 — not 5.2 as the claim's
example computes — so python is selected. -/
theorem C4_score_rule :
    (∀ p : ProcessInfo,
        calculateProcessScore p =
          (if p.state = "R" then 2 else if p.state = "S" then 1 else 0)
          + min (p.cpuPercent / 10) 5
          - (if shellNames.contains (getProcessName p.command) then 1 else 0)
          + (if replNames.contains (getProcessName p.command) then 3 else 0)
          + (if (getProcessName p.command = "brew" ∨ getProcessName p.command = "npm" ∨
                 getProcessName p.command = "yarn") ∧ p.cpuPercent > 0 then 2 else 0)) ∧
    calculateProcessScore bashRec = 0 ∧
    calculateProcessScore pythonRec = 31 / 5 ∧
    findMostInterestingProcess [bashRec, pythonRec] = some pythonRec := by
  refine ⟨fun p => ?_, score_bashRec, score_pythonRec, ?_⟩
  · simp only [calculateProcessScore]
    split_ifs <;> ring
  · norm_num [findMostInterestingProcess, score_bashRec, score_pythonRec]

/-- C5: the claim expects environment "Rails Console" with context
"myapp (staging)" for a rails-console command carrying `RAILS_ENV=staging`
and the path `/apps/myapp/config/environment`.  The source lowercases the
command into `cmd` and then runs the case-sensitive `/RAILS_ENV=(\w+)/`
match on `cmd`, so the match never succeeds (its literal contains uppercase
letters) and the environment always falls back to "development": the code
yields "myapp (development)".  The second conjunct shows the extractor does
find "staging" on the original-case command, isolating the lowercasing as
the defect. -/
theorem C5_rails_env_always_development :
    detectEnvironment railsRec =
      { environment := some "Rails Console",
        applicationContext := some "myapp (development)" } ∧
    railsEnvScan railsRec.command.data = some "staging" ∧
    railsEnvScan (jsToLower railsRec.command).data = none := by
  refine ⟨by decide, by decide, by decide⟩

lemma metricsFold_eq (l : List ProcessInfo)
    (h : ∀ q ∈ l, (parseMemoryString q.memory).isSome) :
    metricsFold l = some
      ((l.map (fun q => q.cpuPercent)).sum,
       (l.map memMB).sum,
       (l.filter breakdownPred).map mkBreakdownEntry) := by
  induction l with
  | nil => simp [metricsFold]
  | cons q rest ih =>
      obtain ⟨v, hv⟩ := Option.isSome_iff_exists.mp (h q (by simp))
      have hrest : ∀ p ∈ rest, (parseMemoryString p.memory).isSome := by
        intro p hp
        exact h p (by simp [hp])
      have hmemv : memMB q = v := by simp [memMB, hv]
      by_cases hq : q.cpuPercent > 0.1 ∨ v > 5
      · have hb : breakdownPred q = true := by
          simp only [breakdownPred, hmemv, Bool.or_eq_true, decide_eq_true_eq]
          exact hq
        simp [metricsFold, hv, ih hrest, List.filter_cons, hb, hq, hmemv]
      · have hb : breakdownPred q = false := by
          simp only [breakdownPred, hmemv, Bool.or_eq_false_iff, decide_eq_false_iff_not]
          exact not_or.mp hq
        simp [metricsFold, hv, ih hrest, List.filter_cons, hb, hq, hmemv]

lemma calculateProcessMetrics_eq (p : ProcessInfo) (ps ds : List ProcessInfo) (fuel : ℕ)
    (hds : getAllDescendants p ps fuel = some ds)
    (h : ∀ q ∈ p :: ds, (parseMemoryString q.memory).isSome) :
    calculateProcessMetrics p ps fuel = some
      { totalCPUPercent := ((p :: ds).map (fun q => q.cpuPercent)).sum
        totalMemoryMB := ((p :: ds).map memMB).sum
        processBreakdown := sortBreakdown (((p :: ds).filter breakdownPred).map mkBreakdownEntry) } := by
  simp [calculateProcessMetrics, hds, metricsFold_eq _ h]

lemma memMB_eq_parseInt_div (q : ProcessInfo)
    (h : (parseMemoryString q.memory).isSome) :
    memMB q = ((parseIntJs q.memory).getD 0 : ℚ) / 1024 := by
  cases hk : parseIntJs q.memory with
  | none => simp [parseMemoryString, hk] at h
  | some k => simp [memMB, parseMemoryString, hk]

lemma exampleMetrics_eq :
    calculateProcessMetrics bashRec [bashRec, pythonRec] 5 = some exampleMetrics := by
  have hds : getAllDescendants bashRec [bashRec, pythonRec] 5 = some [pythonRec] := by decide
  have hp1 : parseIntJs "2000" = some 2000 := by decide
  have hp2 : parseIntJs "30000" = some 30000 := by decide
  have hmem : ∀ q ∈ bashRec :: [pythonRec], (parseMemoryString q.memory).isSome := by
    intro q hq
    fin_cases hq <;> decide
  have hmb : memMB bashRec = 125 / 64 := by
    have : bashRec.memory = "2000" := rfl
    rw [memMB, this, parseMemoryString, hp1]
    norm_num
  have hmp : memMB pythonRec = 1875 / 64 := by
    have : pythonRec.memory = "30000" := rfl
    rw [memMB, this, parseMemoryString, hp2]
    norm_num
  have hfb : breakdownPred bashRec = false := by
    simp only [breakdownPred, Bool.or_eq_false_iff, decide_eq_false_iff_not, hmb]
    norm_num [bashRec]
  have hfp : breakdownPred pythonRec = true := by
    simp only [breakdownPred, Bool.or_eq_true, decide_eq_true_eq]
    left
    norm_num [pythonRec]
  have h1 : ((bashRec :: [pythonRec]).map (fun q => q.cpuPercent)).sum = 12 := by
    norm_num [bashRec, pythonRec]
  have h2 : ((bashRec :: [pythonRec]).map memMB).sum = 125 / 4 := by
    simp only [List.map_cons, List.map_nil, List.sum_cons, List.sum_nil, hmb, hmp]
    norm_num
  have h3 : ((bashRec :: [pythonRec]).filter breakdownPred).map mkBreakdownEntry =
      [exampleEntry] := by
    simp only [List.filter_cons, List.filter_nil, hfb, hfp, cond_false, cond_true]
    have : mkBreakdownEntry pythonRec = exampleEntry := by decide
    simp [this]
  rw [calculateProcessMetrics_eq bashRec [bashRec, pythonRec] [pythonRec] 5 hds hmem,
      h1, h2, h3]
  simp [sortBreakdown, List.mergeSort_singleton, exampleMetrics]

/-- C6: whenever the descendant walk terminates and every memory column
parses, the computed metrics satisfy the claimed invariants: with
non-negative CPU samples, `totalCPUPercent` is at least every single
contributor's `cpuPercent`; `totalMemoryMB` is exactly the sum, over the
process and its descendants, of the parsed memory-in-KB value divided by
1024 (exact in ℚ, hence within any floating-point tolerance); and the
breakdown consists exactly of the contributors with `cpuPercent > 0.1` or
more than 5 MB of memory, sorted descending by `cpuPercent`. -/
theorem C6_metrics_invariants (p : ProcessInfo) (ps ds : List ProcessInfo) (fuel : ℕ)
    (m : ProcessMetrics)
    (hds : getAllDescendants p ps fuel = some ds)
    (hm : calculateProcessMetrics p ps fuel = some m)
    (hcpu : ∀ q ∈ p :: ds, 0 ≤ q.cpuPercent)
    (hmem : ∀ q ∈ p :: ds, (parseMemoryString q.memory).isSome) :
    (∀ q ∈ p :: ds, q.cpuPercent ≤ m.totalCPUPercent) ∧
    m.totalMemoryMB =
      ((p :: ds).map (fun q => ((parseIntJs q.memory).getD 0 : ℚ) / 1024)).sum ∧
    m.processBreakdown.Perm (((p :: ds).filter breakdownPred).map mkBreakdownEntry) ∧
    m.processBreakdown.Pairwise (fun a b => b.cpuPercent ≤ a.cpuPercent) := by
  have hchar := calculateProcessMetrics_eq p ps ds fuel hds hmem
  rw [hm] at hchar
  have hmval := Option.some.inj hchar
  subst hmval
  refine ⟨?_, ?_, ?_, ?_⟩
  · intro q hq
    refine List.single_le_sum ?_ _ (List.mem_map_of_mem _ hq)
    intro x hx
    obtain ⟨r, hr, rfl⟩ := List.mem_map.mp hx
    exact hcpu r hr
  · show ((p :: ds).map memMB).sum = _
    congr 1
    apply List.map_congr_left
    intro q hq
    exact memMB_eq_parseInt_div q (hmem q hq)
  · exact List.mergeSort_perm _ _
  · have htrans : ∀ a b c : BreakdownEntry,
        decide (b.cpuPercent ≤ a.cpuPercent) = true →
        decide (c.cpuPercent ≤ b.cpuPercent) = true →
        decide (c.cpuPercent ≤ a.cpuPercent) = true := by
      intro a b c hab hbc
      rw [decide_eq_true_eq] at *
      exact le_trans hbc hab
    have htotal : ∀ a b : BreakdownEntry,
        (decide (b.cpuPercent ≤ a.cpuPercent) || decide (a.cpuPercent ≤ b.cpuPercent)) = true := by
      intro a b
      simp [le_total]
    have hs := List.sorted_mergeSort htrans htotal
      (((p :: ds).filter breakdownPred).map mkBreakdownEntry)
    exact hs.imp (fun h => of_decide_eq_true h)

/-- Witness for C6: the invariants evaluated at the concrete snapshot
`[bashRec, pythonRec]` with root `bashRec`. -/
theorem C6_metrics_invariants_witness :
    (∀ q ∈ bashRec :: [pythonRec], q.cpuPercent ≤ exampleMetrics.totalCPUPercent) ∧
    exampleMetrics.totalMemoryMB =
      ((bashRec :: [pythonRec]).map (fun q => ((parseIntJs q.memory).getD 0 : ℚ) / 1024)).sum ∧
    exampleMetrics.processBreakdown.Perm
      (((bashRec :: [pythonRec]).filter breakdownPred).map mkBreakdownEntry) ∧
    exampleMetrics.processBreakdown.Pairwise (fun a b => b.cpuPercent ≤ a.cpuPercent) :=
  C6_metrics_invariants bashRec [bashRec, pythonRec] [pythonRec] 5 exampleMetrics
    (by decide) exampleMetrics_eq
    (by intro q hq; fin_cases hq <;> decide)
    (by intro q hq; fin_cases hq <;> decide)

/-- C10: every entry the source places in the breakdown copies, into its
`memory` field, the raw resident-memory KB string of the contributing
record, unconverted, while `totalMemoryMB` of the same metrics record is the
sum of the parsed KB values divided by 1024: the two fields of one
`ProcessMetrics` use different units (KB string vs MB number). -/
theorem C10_breakdown_memory_raw_kb (p : ProcessInfo) (ps ds : List ProcessInfo) (fuel : ℕ)
    (m : ProcessMetrics)
    (hds : getAllDescendants p ps fuel = some ds)
    (hm : calculateProcessMetrics p ps fuel = some m)
    (hmem : ∀ q ∈ p :: ds, (parseMemoryString q.memory).isSome) :
    (∀ e ∈ m.processBreakdown, ∃ q, q ∈ p :: ds ∧
        e.memory = q.memory ∧ e.pid = q.pid ∧ e.cpuPercent = q.cpuPercent ∧
        e.name = getProcessName q.command) ∧
    m.totalMemoryMB =
      ((p :: ds).map (fun q => ((parseIntJs q.memory).getD 0 : ℚ) / 1024)).sum := by
  have hchar := calculateProcessMetrics_eq p ps ds fuel hds hmem
  rw [hm] at hchar
  have hmval := Option.some.inj hchar
  subst hmval
  constructor
  · intro e he
    have he' : e ∈ ((p :: ds).filter breakdownPred).map mkBreakdownEntry :=
      (List.mergeSort_perm _ _).subset he
    obtain ⟨q, hqf, rfl⟩ := List.mem_map.mp he'
    exact ⟨q, List.mem_of_mem_filter hqf, rfl, rfl, rfl, rfl⟩
  · show ((p :: ds).map memMB).sum = _
    congr 1
    apply List.map_congr_left
    intro q hq
    exact memMB_eq_parseInt_div q (hmem q hq)

/-- Witness for C10: the unit split evaluated at the concrete snapshot
`[bashRec, pythonRec]` with root `bashRec`. -/
theorem C10_breakdown_memory_raw_kb_witness :
    (∀ e ∈ exampleMetrics.processBreakdown, ∃ q, q ∈ bashRec :: [pythonRec] ∧
        e.memory = q.memory ∧ e.pid = q.pid ∧ e.cpuPercent = q.cpuPercent ∧
        e.name = getProcessName q.command) ∧
    exampleMetrics.totalMemoryMB =
      ((bashRec :: [pythonRec]).map (fun q => ((parseIntJs q.memory).getD 0 : ℚ) / 1024)).sum :=
  C10_breakdown_memory_raw_kb bashRec [bashRec, pythonRec] [pythonRec] 5 exampleMetrics
    (by decide) exampleMetrics_eq
    (by intro q hq; fin_cases hq <;> decide)

lemma find?_of_first_true {α : Type} (p : α → Bool) :
    ∀ (l₁ : List α) (x : α) (l₂ : List α),
      (∀ y ∈ l₁, p y = false) → p x = true →
      List.find? p (l₁ ++ x :: l₂) = some x := by
  intro l₁
  induction l₁ with
  | nil =>
      intro x l₂ _ hx
      simp [List.find?_cons, hx]
  | cons y ys ih =>
      intro x l₂ hfalse hx
      have hy : p y = false := hfalse y (by simp)
      rw [List.cons_append, List.find?_cons, hy]
      exact ih x l₂ (fun z hz => hfalse z (by simp [hz])) hx

lemma foldl_scoreStep_first_max :
    ∀ (t : List ProcessInfo) (b : ProcessInfo),
      (List.foldl scoreStep b t = b ∧
        ∀ q ∈ t, calculateProcessScore q ≤ calculateProcessScore b) ∨
      (∃ t₁ x t₂, t = t₁ ++ x :: t₂ ∧ List.foldl scoreStep b t = x ∧
        calculateProcessScore b < calculateProcessScore x ∧
        (∀ q ∈ t₁, calculateProcessScore q < calculateProcessScore x) ∧
        (∀ q ∈ t, calculateProcessScore q ≤ calculateProcessScore x)) := by
  intro t
  induction t with
  | nil =>
      intro b
      left
      exact ⟨rfl, by simp⟩
  | cons x t ih =>
      intro b
      rw [List.foldl_cons]
      by_cases hx : calculateProcessScore b < calculateProcessScore x
      · have hstep : scoreStep b x = x := if_pos hx
        rw [hstep]
        rcases ih x with ⟨heq, hall⟩ | ⟨t₁, y, t₂, ht, heq, hlt, hfirst, hall⟩
        · right
          refine ⟨[], x, t, by simp, heq, hx, by simp, ?_⟩
          intro q hq
          rcases List.mem_cons.mp hq with rfl | hq'
          · exact le_refl _
          · exact hall q hq'
        · right
          refine ⟨x :: t₁, y, t₂, by simp [ht], heq, lt_trans hx hlt, ?_, ?_⟩
          · intro q hq
            rcases List.mem_cons.mp hq with rfl | hq'
            · exact hlt
            · exact hfirst q hq'
          · intro q hq
            rcases List.mem_cons.mp hq with rfl | hq'
            · exact le_of_lt hlt
            · exact hall q hq'
      · have hxb : calculateProcessScore x ≤ calculateProcessScore b := not_lt.mp hx
        have hstep : scoreStep b x = b := if_neg hx
        rw [hstep]
        rcases ih b with ⟨heq, hall⟩ | ⟨t₁, y, t₂, ht, heq, hlt, hfirst, hall⟩
        · left
          refine ⟨heq, ?_⟩
          intro q hq
          rcases List.mem_cons.mp hq with rfl | hq'
          · exact hxb
          · exact hall q hq'
        · right
          refine ⟨x :: t₁, y, t₂, by simp [ht], heq, hlt, ?_, ?_⟩
          · intro q hq
            rcases List.mem_cons.mp hq with rfl | hq'
            · exact lt_of_le_of_lt hxb hlt
            · exact hfirst q hq'
          · intro q hq
            rcases List.mem_cons.mp hq with rfl | hq'
            · exact le_trans hxb (le_of_lt hlt)
            · exact hall q hq'

/-- C7: the selection of the interest scorer is deterministic and picks the
first-encountered candidate achieving the maximal score: the source's
`reduce` (which replaces the running best only on a strictly greater score,
so ties keep the earlier element) agrees with the spec-side selector
`specFirstMaxSelect`, the first element whose score is maximal over the
whole list, on every candidate list. -/
theorem C7_selection_deterministic_first_max :
    ∀ processes : List ProcessInfo,
      findMostInterestingProcess processes = specFirstMaxSelect processes := by
  intro l
  cases l with
  | nil => rfl
  | cons h t =>
      have hfold : findMostInterestingProcess (h :: t) =
          some (List.foldl scoreStep h (h :: t)) := rfl
      have hsh : scoreStep h h = h := if_neg (lt_irrefl _)
      rw [hfold, List.foldl_cons, hsh]
      rcases foldl_scoreStep_first_max t h with ⟨heq, hall⟩ |
        ⟨t₁, x, t₂, ht, heq, hbx, hfirst, hall⟩
      · rw [heq]
        have hP : ((h :: t).all
            (fun q => decide (calculateProcessScore q ≤ calculateProcessScore h))) = true := by
          simp only [List.all_eq_true, decide_eq_true_eq]
          intro q hq
          rcases List.mem_cons.mp hq with rfl | hq'
          · exact le_refl _
          · exact hall q hq'
        unfold specFirstMaxSelect
        rw [List.find?_cons, hP]
      · rw [heq]
        have hlist : h :: t = (h :: t₁) ++ x :: t₂ := by simp [ht]
        have hx_mem : x ∈ h :: t := by
          rw [hlist]
          exact List.mem_append_right _ (List.mem_cons_self _ _)
        have hPx : ((h :: t).all
            (fun q => decide (calculateProcessScore q ≤ calculateProcessScore x))) = true := by
          simp only [List.all_eq_true, decide_eq_true_eq]
          intro q hq
          rcases List.mem_cons.mp hq with rfl | hq'
          · exact le_of_lt hbx
          · exact hall q hq'
        have hPfail : ∀ y ∈ h :: t₁,
            ((h :: t).all
              (fun q => decide (calculateProcessScore q ≤ calculateProcessScore y))) = false := by
          intro y hy
          have hylt : calculateProcessScore y < calculateProcessScore x := by
            rcases List.mem_cons.mp hy with rfl | hy'
            · exact hbx
            · exact hfirst y hy'
          refine Bool.eq_false_iff.mpr ?_
          intro hc
          have := (List.all_eq_true.mp hc) x hx_mem
          rw [decide_eq_true_eq] at this
          exact absurd this (not_le.mpr hylt)
        unfold specFirstMaxSelect
        have hfind := find?_of_first_true
          (fun p => ((h :: t).all
            (fun q => decide (calculateProcessScore q ≤ calculateProcessScore p))))
          (h :: t₁) x t₂ hPfail hPx
        rw [← hlist] at hfind
        exact hfind.symm
